import Mathlib

/-!
# Verification of the membership-mutation core

Shallow embedding of the `callback` application (Django models + FastAPI
endpoints with pydantic validation) and proofs about its behaviour.

Sources embedded:
* `callback/models.py` — `Player`, `Game` (many-to-many `players`,
  `created_at` with `auto_now_add`, `updated_at` with `auto_now`; Django's
  `auto_now` fires only on `Model.save()`, not on many-to-many `add`).
* `callback/fastapi.py` — pydantic schemas `CreatePlayerItem`,
  `GameItem`, `AddingPlayerInGame` and endpoints `create_new_player`,
  `create_new_game`, `add_player_to_game`.

Request pipeline, as FastAPI executes it: the request body is parsed and
validated by the pydantic schema first (its validators query the store);
only if that succeeds does the endpoint function run, whose first
statement is `Authorize.jwt_required()` (the auth gate, modelled by a
boolean `auth`: `true` means a valid credential was presented).
Validation errors are collected per field in declaration order, followed
by any root-validator error; the HTTP handler `validation_exception_handler`
returns them as a list.  Time is modelled by a `Nat` parameter `now`.
-/

namespace Callback

/-- A `Player` row (`callback/models.py`): unique auto pk, `name`
(`max_length=54, unique=True`), `email` (`max_length=54, unique=True`),
`created_at` (`auto_now_add`), `updated_at` (`auto_now`). -/
structure Player where
  id : Nat
  name : String
  email : String
  created_at : Nat
  updated_at : Nat
  deriving DecidableEq, Repr

/-- A `Game` row (`callback/models.py`): auto pk, `name`
(`max_length=254, default=""`), many-to-many `players` (the through table,
kept as the list of member player pks in insertion order; Django's m2m
`add` inserts no duplicate row), timestamps as for `Player`. -/
structure Game where
  id : Nat
  name : String
  players : List Nat
  created_at : Nat
  updated_at : Nat
  deriving DecidableEq, Repr

/-- The relational store: all persisted rows plus the auto-increment
counters for the two primary keys. -/
structure Store where
  players : List Player
  games : List Game
  nextPlayerId : Nat
  nextGameId : Nat
  deriving DecidableEq, Repr

/-- The rejection reasons surfaced by the API: the auth gate's 401, the
pydantic constraint failures (`max_length`), and the `ValueError`s raised
by the custom validators in `callback/fastapi.py`. -/
inductive Reason where
  | NameTooLong
  | InvalidNameCharset
  | DuplicateName
  | EmailTooLong
  | InvalidEmailFormat
  | DuplicateEmail
  | PlayerNotFound
  | GameNotFound
  | GameFull
  | AlreadyMember
  deriving DecidableEq, Repr

/-- Outcome of one request: success JSON with the returned id, a 400
with the collected validation error list, or the 401 raised by
`Authorize.jwt_required()`. -/
inductive ApiResult where
  | ok (id : Nat)
  | validationError (reasons : List Reason)
  | unauthenticated
  deriving DecidableEq, Repr

/-- `Player.objects.get(name=name)` succeeds iff such a row exists. -/
def playerWithNameExists (s : Store) (n : String) : Bool :=
  s.players.any fun p => p.name == n

/-- `Player.objects.get(email=email)` succeeds iff such a row exists. -/
def playerWithEmailExists (s : Store) (e : String) : Bool :=
  s.players.any fun p => p.email == e

/-- `Player.objects.get(pk=player_id)` succeeds iff such a row exists. -/
def playerExists (s : Store) (pid : Nat) : Bool :=
  s.players.any fun p => p.id == pid

/-- `Game.objects.get(pk=game_id)`: the row with that pk, if any. -/
def findGame (s : Store) (gid : Nat) : Option Game :=
  s.games.find? fun g => g.id == gid

/-- `allowed_chars = set('0123456789abcdef')` in
`CreatePlayerItem.validate_name`. -/
def allowedNameChar (c : Char) : Bool :=
  ("0123456789abcdef".toList).contains c

/-- A regex `\w` character.  Python's `re` on `str` is unicode-aware; the
inputs of interest here are ASCII, for which `\w` is `[A-Za-z0-9_]`. -/
def wordChar (c : Char) : Bool :=
  c.isAlphanum || c == '_'

/-- A character of the class `[\w\.-]` from the email pattern. -/
def wddChar (c : Char) : Bool :=
  wordChar c || c == '.' || c == '-'

/-- `re.match(r'^[\w\.-]+@[\w\.-]+\.\w+$', s)` from
`CreatePlayerItem.validate_email`.  A match is a split
`local ++ "@" ++ domain ++ "." ++ tld` with `local`, `domain` nonempty over
`[\w.-]` and `tld` nonempty over `\w`; the existential over the positions
of the `@` (position `i`) and of the dot (position `j`) is decided by
enumeration.  Python's `$` also matches just before a final newline. -/
def emailCoreMatch (l : List Char) : Bool :=
  (List.range l.length).any fun i =>
    (List.range l.length).any fun j =>
      decide (0 < i) && decide (i + 1 < j) && decide (j + 1 < l.length) &&
      (l.getD i ' ' == '@') && (l.getD j ' ' == '.') &&
      ((l.take i).all wddChar) &&
      (((l.drop (i + 1)).take (j - (i + 1))).all wddChar) &&
      ((l.drop (j + 1)).all wordChar)

/-- The email pattern applied to a string, including the `$`-before-final-
newline rule of Python regexes. -/
def emailMatch (s : String) : Bool :=
  emailCoreMatch s.toList ||
    (s.toList.getLast? == some '\n' && emailCoreMatch s.toList.dropLast)

/-- The pydantic checks on `CreatePlayerItem.name`: the field constraint
`max_length=54` first (a constraint failure skips the custom validator),
then `validate_name`: the `0-9a-f` character-set restriction, then the
duplicate lookup.  `none` means the field validated. -/
def validate_name (s : Store) (name : String) : Option Reason :=
  if name.length > 54 then some Reason.NameTooLong
  else if !(name.toList.all allowedNameChar) then some Reason.InvalidNameCharset
  else if playerWithNameExists s name then some Reason.DuplicateName
  else none

/-- The pydantic checks on `CreatePlayerItem.email`: `max_length=54`,
then `validate_email`: the regex, then the duplicate lookup. -/
def validate_email (s : Store) (email : String) : Option Reason :=
  if email.length > 54 then some Reason.EmailTooLong
  else if !(emailMatch email) then some Reason.InvalidEmailFormat
  else if playerWithEmailExists s email then some Reason.DuplicateEmail
  else none

/-- All validation errors of a `CreatePlayerItem` body: pydantic collects
the per-field errors in field declaration order (`name`, then `email`);
within a field the first raised error stops that field's validation. -/
def validateCreatePlayer (s : Store) (name email : String) : List Reason :=
  (validate_name s name).toList ++ (validate_email s email).toList

/-- The field validator `AddingPlayerInGame.validate_player_id`:
`Player.objects.get(pk=player_id)` must succeed. -/
def validate_player_id (s : Store) (pid : Nat) : Option Reason :=
  if playerExists s pid then none else some Reason.PlayerNotFound

/-- The `root_validator` `AddingPlayerInGame.validate_game_id`, which runs
after the field validators with `values.get('player_id')` (`none` when the
field failed): the game lookup, then `game.players.count() > 4`, then
`player_id in game.players.values_list('pk', flat=True)` (`None in pks` is
false).  Each `raise` stops the validator, so at most one error. -/
def validate_game_id (s : Store) (playerOpt : Option Nat) (gid : Nat) :
    Option Reason :=
  match findGame s gid with
  | none => some Reason.GameNotFound
  | some game =>
    if game.players.length > 4 then some Reason.GameFull
    else if (match playerOpt with
             | some pid => game.players.contains pid
             | none => false) then some Reason.AlreadyMember
    else none

/-- All validation errors of an `AddingPlayerInGame` body: the field
error (if any) first, then the root-validator error (if any), as pydantic
orders them. -/
def validateMembership (s : Store) (gid pid : Nat) : List Reason :=
  let fieldErr := validate_player_id s pid
  let playerOpt := if fieldErr.isNone then some pid else none
  fieldErr.toList ++ (validate_game_id s playerOpt gid).toList

/-- The `POST /new_player` endpoint `create_new_player`: pydantic
validation of the body runs first; on failure FastAPI answers 400 through
`validation_exception_handler` and the endpoint body — including
`Authorize.jwt_required()` — never runs.  On validation success the
endpoint runs: the auth gate, then `Player(...).save()`, which assigns the
next pk and sets both timestamps (`auto_now_add` / `auto_now`). -/
def create_new_player (s : Store) (auth : Bool) (now : Nat)
    (name email : String) : Store × ApiResult :=
  match validateCreatePlayer s name email with
  | [] =>
    if auth then
      let p : Player :=
        { id := s.nextPlayerId, name := name, email := email,
          created_at := now, updated_at := now }
      ({ s with players := s.players ++ [p],
                nextPlayerId := s.nextPlayerId + 1 },
       ApiResult.ok p.id)
    else (s, ApiResult.unauthenticated)
  | errs => (s, ApiResult.validationError errs)

/-- The `POST /new_game` endpoint `create_new_game`: `GameItem` has no
custom validator, so body validation always passes; then the auth gate,
then `Game().save()` with `name` set and an empty member set. -/
def create_new_game (s : Store) (auth : Bool) (now : Nat)
    (name : String) : Store × ApiResult :=
  if auth then
    let g : Game :=
      { id := s.nextGameId, name := name, players := [],
        created_at := now, updated_at := now }
    ({ s with games := s.games ++ [g], nextGameId := s.nextGameId + 1 },
     ApiResult.ok g.id)
  else (s, ApiResult.unauthenticated)

/-- Django's `game.players.add(pid)`: inserts a row in the through table
unless the pair is already present. -/
def m2mAdd (l : List Nat) (x : Nat) : List Nat :=
  if l.contains x then l else l ++ [x]

/-- Apply `f` to every game whose pk is `gid` (with unique pks, the one
row `UPDATE`d by the write). -/
def updateGame (games : List Game) (gid : Nat) (f : Game → Game) :
    List Game :=
  games.map fun g => if g.id == gid then f g else g

/-- The `POST /add_player_to_game` endpoint `add_player_to_game`: body
validation (`AddingPlayerInGame`) first, then the auth gate, then
`game.players.add(request_data.player_id)` and the echo of `game_id`.
The m2m `add` issues only an `INSERT` into the through table — it does not
call `Game.save()`, so the game row itself (in particular its `auto_now`
field `updated_at`) is not touched.  `now` is the request time; no
timestamp is written with it. -/
def add_player_to_game (s : Store) (auth : Bool) (_now : Nat)
    (gid pid : Nat) : Store × ApiResult :=
  match validateMembership s gid pid with
  | [] =>
    if auth then
      ({ s with games := updateGame s.games gid
                  fun g => { g with players := m2mAdd g.players pid } },
       ApiResult.ok gid)
    else (s, ApiResult.unauthenticated)
  | errs => (s, ApiResult.validationError errs)

/-- One API call, for reasoning about sequences of operations. -/
inductive Op where
  | createPlayer (auth : Bool) (now : Nat) (name email : String)
  | createGame (auth : Bool) (now : Nat) (name : String)
  | addMember (auth : Bool) (now : Nat) (gid pid : Nat)
  deriving DecidableEq, Repr

/-- The store after one call (the response is discarded). -/
def step (s : Store) : Op → Store
  | Op.createPlayer a n nm em => (create_new_player s a n nm em).1
  | Op.createGame a n nm => (create_new_game s a n nm).1
  | Op.addMember a n g p => (add_player_to_game s a n g p).1

/-- The store after a sequence of calls, executed left to right. -/
def run (s : Store) : List Op → Store
  | [] => s
  | op :: ops => run (step s op) ops

/-- The data-model invariant of one game: at most 5 members and no
duplicate member. -/
def GameInv (g : Game) : Prop :=
  g.players.length ≤ 5 ∧ g.players.Nodup

/-- The data-model invariants the proofs track: every game satisfies
`GameInv`, game pks are unique and below the auto-increment counter. -/
def StoreInv (s : Store) : Prop :=
  (∀ g ∈ s.games, GameInv g) ∧
  (∀ g ∈ s.games, g.id < s.nextGameId) ∧
  (s.games.map Game.id).Nodup

instance (g : Game) : Decidable (GameInv g) := by
  unfold GameInv; infer_instance

instance (s : Store) : Decidable (StoreInv s) := by
  unfold StoreInv GameInv; infer_instance

/-- The membership-validation outcome as §4.1 of the spec words it: the
checks in the order `PlayerNotFound`, `GameNotFound`, `GameFull`,
`AlreadyMember`, the first failing one giving the reason.  Stated from the
spec's words, to be compared with `validateMembership` from the code. -/
def specMembershipReason (s : Store) (gid pid : Nat) : Option Reason :=
  if !(playerExists s pid) then some Reason.PlayerNotFound
  else
    match findGame s gid with
    | none => some Reason.GameNotFound
    | some g =>
      if 4 < g.players.length then some Reason.GameFull
      else if g.players.contains pid then some Reason.AlreadyMember
      else none

/-! ### Concrete stores used by witnesses and counterexamples -/

/-- The empty store, as after a fresh migration (Django pks start at 1). -/
def st0 : Store :=
  { players := [], games := [], nextPlayerId := 1, nextGameId := 1 }

/-- A store holding one player named `ab`. -/
def stDup : Store :=
  { players := [⟨1, "ab", "a@b.cd", 0, 0⟩],
    games := [], nextPlayerId := 2, nextGameId := 1 }

/-- Six players; game 1 has 4 members, game 2 already has 5 members. -/
def stFive : Store :=
  { players := [⟨1, "1", "1@x.yz", 0, 0⟩, ⟨2, "2", "2@x.yz", 0, 0⟩,
                ⟨3, "3", "3@x.yz", 0, 0⟩, ⟨4, "4", "4@x.yz", 0, 0⟩,
                ⟨5, "5", "5@x.yz", 0, 0⟩, ⟨6, "6", "6@x.yz", 0, 0⟩],
    games := [⟨1, "g", [1, 2, 3, 4], 0, 0⟩, ⟨2, "h", [1, 2, 3, 4, 5], 0, 0⟩],
    nextPlayerId := 7, nextGameId := 3 }

/-- Two players and one game with a single member (player 1). -/
def stOne : Store :=
  { players := [⟨1, "ab", "a@b.cd", 0, 0⟩, ⟨2, "cd", "c@d.ef", 0, 0⟩],
    games := [⟨1, "g", [1], 0, 0⟩], nextPlayerId := 3, nextGameId := 2 }

/-! ### Theorems -/

/-- When the player exists, the membership errors are exactly those of the
root validator run with `values.get('player_id') = some pid`. -/
theorem validateMembership_eq (s : Store) (gid pid : Nat)
    (hp : playerExists s pid = true) :
    validateMembership s gid pid = (validate_game_id s (some pid) gid).toList := by
  unfold validateMembership validate_player_id
  simp [hp]

/-- C6: for every `(gameId, playerId)` input, the membership-validation
checks apply in the order `PlayerNotFound`, `GameNotFound`, `GameFull`,
`AlreadyMember`, and the first failing check determines the rejection
reason: the first error the API reports is exactly what the spec's check
order computes (`specMembershipReason`). -/
theorem membership_first_failing (s : Store) (gid pid : Nat) :
    (validateMembership s gid pid).head? = specMembershipReason s gid pid := by
  cases hp : playerExists s pid
  · unfold validateMembership specMembershipReason validate_player_id
    simp [hp]
  · rw [validateMembership_eq s gid pid hp]
    unfold specMembershipReason validate_game_id
    simp only [hp, Bool.not_true, Bool.false_eq_true, if_false]
    cases hg : findGame s gid
    · simp
    · dsimp only
      split_ifs <;> simp_all

/-- C2: when the earlier membership checks pass (the player exists and the
game is found), validation rejects with `GameFull` exactly when the
pre-addition member count exceeds 4 — a game with at most 4 members is
never rejected as `GameFull`, so the effective cap is 5 members. -/
theorem game_full_iff (s : Store) (gid pid : Nat) (g : Game)
    (hp : playerExists s pid = true) (hg : findGame s gid = some g) :
    Reason.GameFull ∈ validateMembership s gid pid ↔ 4 < g.players.length := by
  rw [validateMembership_eq s gid pid hp]
  unfold validate_game_id
  rw [hg]
  dsimp only
  split_ifs with h1 h2 <;> simp [h1]

/-- C2 witness: in `stOne`, player 2 exists, game 1 is found with one
member, and `GameFull` is indeed not among the rejection reasons. -/
theorem game_full_iff_witness :
    playerExists stOne 2 = true ∧ findGame stOne 1 = some ⟨1, "g", [1], 0, 0⟩ ∧
      ¬ Reason.GameFull ∈ validateMembership stOne 1 2 :=
  ⟨by decide, by decide,
    fun hmem => by
      have h := (game_full_iff stOne 1 2 ⟨1, "g", [1], 0, 0⟩
        (by decide) (by decide)).mp hmem
      exact absurd h (by decide)⟩

/-- The only outcomes the email field validation can produce. -/
theorem validate_email_cases (s : Store) (e : String) :
    validate_email s e = none ∨ validate_email s e = some Reason.EmailTooLong ∨
    validate_email s e = some Reason.InvalidEmailFormat ∨
    validate_email s e = some Reason.DuplicateEmail := by
  unfold validate_email
  split_ifs <;> simp

/-- The only outcomes the name field validation can produce. -/
theorem validate_name_cases (s : Store) (n : String) :
    validate_name s n = none ∨ validate_name s n = some Reason.NameTooLong ∨
    validate_name s n = some Reason.InvalidNameCharset ∨
    validate_name s n = some Reason.DuplicateName := by
  unfold validate_name
  split_ifs <;> simp

/-- C1 (amended): body validation runs before the auth gate.  A request
without a valid principal is rejected `Unauthenticated` only when its body
passes validation; when validation fails, the validation rejection reason
is returned regardless of the credential — for `createPlayer` and
`addMemberToGame` alike — while `createGame`, which has no validation,
always rejects a credential-less call with `Unauthenticated`. -/
theorem auth_checked_after_validation (s : Store) (now : Nat)
    (name email gname : String) (gid pid : Nat) :
    (validateCreatePlayer s name email = [] →
      (create_new_player s false now name email).2 = ApiResult.unauthenticated) ∧
    (validateCreatePlayer s name email ≠ [] → ∀ a : Bool,
      (create_new_player s a now name email).2
        = ApiResult.validationError (validateCreatePlayer s name email)) ∧
    (create_new_game s false now gname).2 = ApiResult.unauthenticated ∧
    (validateMembership s gid pid = [] →
      (add_player_to_game s false now gid pid).2 = ApiResult.unauthenticated) ∧
    (validateMembership s gid pid ≠ [] → ∀ a : Bool,
      (add_player_to_game s a now gid pid).2
        = ApiResult.validationError (validateMembership s gid pid)) := by
  refine ⟨?_, ?_, ?_, ?_, ?_⟩
  · intro h
    simp [create_new_player, h]
  · intro h a
    cases hv : validateCreatePlayer s name email with
    | nil => exact absurd hv h
    | cons e es => simp [create_new_player, hv]
  · simp [create_new_game]
  · intro h
    simp [add_player_to_game, h]
  · intro h a
    cases hv : validateMembership s gid pid with
    | nil => exact absurd hv h
    | cons e es => simp [add_player_to_game, hv]

/-- C1 counterexample: with no valid credential, `createPlayer` on a store
already holding a player named `ab` returns the validation reason
`DuplicateName`, not `Unauthenticated` — validation runs first. -/
theorem auth_first_counterexample :
    (create_new_player stDup false 0 "ab" "x@y.zw").2
        = ApiResult.validationError [Reason.DuplicateName] ∧
    (create_new_player stDup false 0 "ab" "x@y.zw").2 ≠ ApiResult.unauthenticated := by
  decide

/-- C1 witness: the amended theorem applied at a concrete store. -/
theorem auth_checked_after_validation_witness :
    validateCreatePlayer stDup "ab" "x@y.zw" ≠ [] ∧
    (create_new_player stDup true 0 "ab" "x@y.zw").2
      = ApiResult.validationError (validateCreatePlayer stDup "ab" "x@y.zw") :=
  ⟨by decide,
   (auth_checked_after_validation stDup 0 "ab" "x@y.zw" "g" 1 1).2.1 (by decide) true⟩

/-- C7: whenever validation of a command fails, the store is left
completely unchanged and the rejection reasons are returned to the caller;
`createGame` never returns a validation rejection at all. -/
theorem validation_failure_no_write (s : Store) (auth : Bool) (now : Nat)
    (name email gname : String) (gid pid : Nat) :
    (validateCreatePlayer s name email ≠ [] →
      (create_new_player s auth now name email).1 = s ∧
      (create_new_player s auth now name email).2
        = ApiResult.validationError (validateCreatePlayer s name email)) ∧
    (∀ errs : List Reason,
      (create_new_game s auth now gname).2 ≠ ApiResult.validationError errs) ∧
    (validateMembership s gid pid ≠ [] →
      (add_player_to_game s auth now gid pid).1 = s ∧
      (add_player_to_game s auth now gid pid).2
        = ApiResult.validationError (validateMembership s gid pid)) := by
  refine ⟨?_, ?_, ?_⟩
  · intro h
    cases hv : validateCreatePlayer s name email with
    | nil => exact absurd hv h
    | cons e es => simp [create_new_player, hv]
  · intro errs
    cases auth <;> simp [create_new_game]
  · intro h
    cases hv : validateMembership s gid pid with
    | nil => exact absurd hv h
    | cons e es => simp [add_player_to_game, hv]

/-- C7 witness: a game with 5 members rejects a 6th `addMemberToGame`;
the store is unchanged and the member set still has exactly 5 members. -/
theorem validation_failure_no_write_witness :
    validateMembership stFive 2 6 ≠ [] ∧
    (add_player_to_game stFive true 7 2 6).1 = stFive ∧
    (findGame stFive 2).map (fun g => g.players.length) = some 5 :=
  ⟨by decide,
   ((validation_failure_no_write stFive true 7 "n" "e" "g" 2 6).2.2 (by decide)).1,
   by decide⟩

/-- C5: for `createPlayer` inputs within the field length bounds, the name
character-set restriction is checked before name uniqueness (a disallowed
character yields `InvalidNameCharset` and never `DuplicateName`), a name
passing the charset that already exists yields `DuplicateName`, the email
format check runs before email uniqueness (a malformed email yields
`InvalidEmailFormat` and never `DuplicateEmail`), and a well-formed
duplicate email yields `DuplicateEmail`. -/
theorem createPlayer_validation_order (s : Store) (name email : String)
    (hn : name.length ≤ 54) (he : email.length ≤ 54) :
    (name.toList.all allowedNameChar = false →
      Reason.InvalidNameCharset ∈ validateCreatePlayer s name email ∧
      Reason.DuplicateName ∉ validateCreatePlayer s name email) ∧
    (name.toList.all allowedNameChar = true → playerWithNameExists s name = true →
      Reason.DuplicateName ∈ validateCreatePlayer s name email) ∧
    (emailMatch email = false →
      Reason.InvalidEmailFormat ∈ validateCreatePlayer s name email ∧
      Reason.DuplicateEmail ∉ validateCreatePlayer s name email) ∧
    (emailMatch email = true → playerWithEmailExists s email = true →
      Reason.DuplicateEmail ∈ validateCreatePlayer s name email) := by
  have hn' : ¬ name.length > 54 := by omega
  have he' : ¬ email.length > 54 := by omega
  refine ⟨?_, ?_, ?_, ?_⟩
  · intro h
    have hvn : validate_name s name = some Reason.InvalidNameCharset := by
      unfold validate_name
      rw [if_neg hn', h]; rfl
    constructor
    · simp [validateCreatePlayer, hvn]
    · rcases validate_email_cases s email with h2 | h2 | h2 | h2 <;>
        simp [validateCreatePlayer, hvn, h2]
  · intro h1 h2
    have hvn : validate_name s name = some Reason.DuplicateName := by
      unfold validate_name
      rw [if_neg hn', h1, h2]; rfl
    simp [validateCreatePlayer, hvn]
  · intro h
    have hve : validate_email s email = some Reason.InvalidEmailFormat := by
      unfold validate_email
      rw [if_neg he', h]; rfl
    constructor
    · simp [validateCreatePlayer, hve]
    · rcases validate_name_cases s name with h2 | h2 | h2 | h2 <;>
        simp [validateCreatePlayer, hve, h2]
  · intro h1 h2
    have hve : validate_email s email = some Reason.DuplicateEmail := by
      unfold validate_email
      rw [if_neg he', h1, h2]; rfl
    simp [validateCreatePlayer, hve]

/-- C5 witness: the theorem applied at a concrete store and inputs. -/
theorem createPlayer_validation_order_witness :
    "zz".length ≤ 54 ∧ "bad".length ≤ 54 ∧
    Reason.InvalidNameCharset ∈ validateCreatePlayer stDup "zz" "bad" :=
  ⟨by decide, by decide,
   ((createPlayer_validation_order stDup "zz" "bad" (by decide) (by decide)).1
     (by decide)).1⟩

/-- C10: the empty name passes the character-set check (the empty set of
characters is a subset of the allowed set), so `createPlayer` with name
`""` is never rejected `InvalidNameCharset`, and succeeds (returning the
next player id) whenever no player with the empty name exists and the
email checks pass. -/
theorem empty_name_passes_charset (s : Store) (now : Nat) (email : String) :
    Reason.InvalidNameCharset ∉ validateCreatePlayer s "" email ∧
    (playerWithNameExists s "" = false → validate_email s email = none →
      (create_new_player s true now "" email).2 = ApiResult.ok s.nextPlayerId) := by
  have hvn : validate_name s "" =
      if playerWithNameExists s "" then some Reason.DuplicateName else none := rfl
  constructor
  · rcases validate_email_cases s email with h2 | h2 | h2 | h2 <;>
      cases hx : playerWithNameExists s "" <;>
        simp [validateCreatePlayer, hvn, hx, h2]
  · intro h1 h2
    have hv : validateCreatePlayer s "" email = [] := by
      simp [validateCreatePlayer, hvn, h1, h2]
    simp [create_new_player, hv]

/-- C10 witness: the theorem applied at the empty store. -/
theorem empty_name_passes_charset_witness :
    playerWithNameExists st0 "" = false ∧ validate_email st0 "a@b.cd" = none ∧
    (create_new_player st0 true 0 "" "a@b.cd").2 = ApiResult.ok st0.nextPlayerId :=
  ⟨by decide, by decide,
   (empty_name_passes_charset st0 0 "a@b.cd").2 (by decide) (by decide)⟩

/-- Finding by pk after updating the row with that pk. -/
theorem find_update_by_id (l : List Game) (gid : Nat) (f : Game → Game)
    (hf : ∀ g, (f g).id = g.id) :
    ((updateGame l gid f).find? fun g => g.id == gid)
      = (l.find? fun g => g.id == gid).map f := by
  unfold updateGame
  induction l with
  | nil => rfl
  | cons a t ih =>
    simp only [List.map_cons]
    by_cases h : (a.id == gid) = true
    · rw [if_pos h]
      rw [List.find?_cons_of_pos (p := fun (g : Game) => g.id == gid) _
            (show ((f a).id == gid) = true by rw [hf a]; exact h),
          List.find?_cons_of_pos (p := fun (g : Game) => g.id == gid) _ h]
      rfl
    · rw [if_neg h]
      rw [List.find?_cons_of_neg (p := fun (g : Game) => g.id == gid) _ h,
          List.find?_cons_of_neg (p := fun (g : Game) => g.id == gid) _ h]
      exact ih

/-- With unique pks, lookup of a member's pk returns that member. -/
theorem find_eq_of_mem_nodup (l : List Game) (i : Nat) (hnd : (l.map Game.id).Nodup)
    (g : Game) (hg : g ∈ l) (hi : g.id = i) :
    (l.find? fun x => x.id == i) = some g := by
  induction l with
  | nil => cases hg
  | cons a t ih =>
    rcases List.mem_cons.mp hg with rfl | hgt
    · rw [List.find?_cons_of_pos (p := fun (x : Game) => x.id == i) _
            (show (g.id == i) = true by rw [hi]; exact beq_self_eq_true i)]
    · have hne : a.id ≠ i := by
        intro he
        have hmem : g.id ∈ t.map Game.id := List.mem_map_of_mem _ hgt
        rw [List.map_cons, List.nodup_cons] at hnd
        rw [hi] at hmem
        exact hnd.1 (he ▸ hmem)
      rw [List.find?_cons_of_neg (p := fun (x : Game) => x.id == i) _ (by simp [hne])]
      rw [List.map_cons, List.nodup_cons] at hnd
      exact ih hnd.2 hgt

/-- What an empty membership-error list means: the player exists, the
game was found with at most 4 members, and the player is not a member. -/
theorem membership_valid_facts (s : Store) (gid pid : Nat)
    (hv : validateMembership s gid pid = []) :
    playerExists s pid = true ∧ ∃ g, findGame s gid = some g ∧
      g.players.length ≤ 4 ∧ g.players.contains pid = false := by
  by_cases hp : playerExists s pid = true
  · refine ⟨hp, ?_⟩
    rw [validateMembership_eq s gid pid hp] at hv
    unfold validate_game_id at hv
    cases hg : findGame s gid with
    | none => rw [hg] at hv; simp at hv
    | some g =>
      rw [hg] at hv
      dsimp only at hv
      by_cases hl : g.players.length > 4
      · rw [if_pos hl] at hv; simp at hv
      · rw [if_neg hl] at hv
        by_cases hc : g.players.contains pid = true
        · rw [if_pos hc] at hv; simp at hv
        · exact ⟨g, rfl, by omega, by simpa using hc⟩
  · exfalso
    unfold validateMembership validate_player_id at hv
    rw [if_neg hp] at hv
    simp at hv

/-- The state and response of a successful `add_player_to_game`: the
player table is untouched and the game row gains the member. -/
theorem add_success_state (s : Store) (now gid pid : Nat) (g : Game)
    (hg : findGame s gid = some g) (hv : validateMembership s gid pid = []) :
    (add_player_to_game s true now gid pid).2 = ApiResult.ok gid ∧
    (add_player_to_game s true now gid pid).1.players = s.players ∧
    findGame (add_player_to_game s true now gid pid).1 gid
      = some { g with players := g.players ++ [pid] } := by
  obtain ⟨hp, g', hg', hlen, hmem⟩ := membership_valid_facts s gid pid hv
  rw [hg] at hg'
  have hgg : g' = g := by injection hg' with h; exact h.symm
  rw [hgg] at hlen hmem
  unfold add_player_to_game
  rw [hv]
  refine ⟨rfl, rfl, ?_⟩
  show ((updateGame s.games gid
      (fun x => { x with players := m2mAdd x.players pid })).find?
        fun x => x.id == gid)
    = some { g with players := g.players ++ [pid] }
  rw [find_update_by_id s.games gid
        (fun x => { x with players := m2mAdd x.players pid }) (fun x => rfl)]
  rw [show (s.games.find? fun x => x.id == gid) = some g from hg]
  unfold m2mAdd
  rw [Option.map_some']
  rw [hmem]
  rfl

/-- A failing `AddingPlayerInGame` validation short-circuits the endpoint:
the store is returned unchanged with the error list. -/
theorem add_player_fail (s : Store) (a : Bool) (now gid pid : Nat)
    (e : Reason) (l : List Reason)
    (hv : validateMembership s gid pid = e :: l) :
    add_player_to_game s a now gid pid = (s, ApiResult.validationError (e :: l)) := by
  unfold add_player_to_game
  rw [hv]

/-- C4 (amended): an `addMemberToGame` call that passes membership
validation appends the player to the game's member set and echoes the
gameId back — but it does not refresh the game's updated timestamp: the
game row is unchanged except for `players` (the record equality pins
`updated_at` to its old value), because the m2m `add` never calls
`save()` and `auto_now` only fires on `save()`. -/
theorem add_member_success_effect (s : Store) (now gid pid : Nat) (g : Game)
    (hg : findGame s gid = some g) (hv : validateMembership s gid pid = []) :
    (add_player_to_game s true now gid pid).2 = ApiResult.ok gid ∧
    findGame (add_player_to_game s true now gid pid).1 gid
      = some { g with players := g.players ++ [pid] } ∧
    (findGame (add_player_to_game s true now gid pid).1 gid).map Game.updated_at
      = some g.updated_at := by
  obtain ⟨h1, _, h3⟩ := add_success_state s now gid pid g hg hv
  exact ⟨h1, h3, by rw [h3]; rfl⟩

/-- C4 witness: the amended theorem applied at a concrete store. -/
theorem add_member_success_effect_witness :
    findGame stOne 1 = some ⟨1, "g", [1], 0, 0⟩ ∧
    validateMembership stOne 1 2 = [] ∧
    (add_player_to_game stOne true 7 1 2).2 = ApiResult.ok 1 ∧
    findGame (add_player_to_game stOne true 7 1 2).1 1
      = some ⟨1, "g", [1, 2], 0, 0⟩ :=
  ⟨by decide, by decide,
   (add_member_success_effect stOne 7 1 2 ⟨1, "g", [1], 0, 0⟩
      (by decide) (by decide)).1,
   (add_member_success_effect stOne 7 1 2 ⟨1, "g", [1], 0, 0⟩
      (by decide) (by decide)).2.1⟩

/-- C4 counterexample: a successful add at request time 99 leaves the
game's `updated_at` at its old value 0 — the updated timestamp is not
refreshed. -/
theorem add_member_timestamp_counterexample :
    (add_player_to_game stOne true 99 1 2).2 = ApiResult.ok 1 ∧
    ((add_player_to_game stOne true 99 1 2).1.games.map Game.updated_at = [0]) ∧
    (99 : Nat) ≠ 0 := by decide

/-- C9 (amended): after a first successful `addMemberToGame(gid, pid)`, an
identical second call always fails and leaves the store unchanged, but the
failure is `AlreadyMember` only when the first add left at most 4 members;
when the first add brought the game to 5 members, the `GameFull` check
(which runs before the membership check) fires instead. -/
theorem add_twice_rejected (s : Store) (now now2 gid pid : Nat) (g : Game)
    (hg : findGame s gid = some g) (hv : validateMembership s gid pid = []) :
    (add_player_to_game s true now gid pid).2 = ApiResult.ok gid ∧
    (add_player_to_game (add_player_to_game s true now gid pid).1
        true now2 gid pid).2
      = ApiResult.validationError
          (if g.players.length = 4 then [Reason.GameFull]
           else [Reason.AlreadyMember]) ∧
    (add_player_to_game (add_player_to_game s true now gid pid).1
        true now2 gid pid).1
      = (add_player_to_game s true now gid pid).1 := by
  obtain ⟨hp, g', hg', hlen, hmem⟩ := membership_valid_facts s gid pid hv
  rw [hg] at hg'
  have hgg : g' = g := by injection hg' with h; exact h.symm
  rw [hgg] at hlen hmem
  obtain ⟨h1, hpl, hfind⟩ := add_success_state s now gid pid g hg hv
  have hp1 : playerExists (add_player_to_game s true now gid pid).1 pid = true := by
    unfold playerExists
    rw [hpl]
    exact hp
  have hv1 : validateMembership (add_player_to_game s true now gid pid).1 gid pid
      = (if g.players.length = 4 then [Reason.GameFull]
         else [Reason.AlreadyMember]) := by
    rw [validateMembership_eq _ gid pid hp1]
    unfold validate_game_id
    rw [hfind]
    dsimp only
    by_cases h4 : g.players.length = 4
    · rw [if_pos (show (g.players ++ [pid]).length > 4 by simp [h4])]
      rw [if_pos h4]
      rfl
    · rw [if_neg (show ¬ (g.players ++ [pid]).length > 4 by simp; omega)]
      rw [if_pos (show ((g.players ++ [pid]).contains pid) = true by simp)]
      rw [if_neg h4]
      rfl
  refine ⟨h1, ?_, ?_⟩
  · by_cases h4 : g.players.length = 4
    · rw [if_pos h4] at hv1
      rw [add_player_fail _ true now2 gid pid _ _ hv1]
      rw [if_pos h4]
    · rw [if_neg h4] at hv1
      rw [add_player_fail _ true now2 gid pid _ _ hv1]
      rw [if_neg h4]
  · by_cases h4 : g.players.length = 4
    · rw [if_pos h4] at hv1
      rw [add_player_fail _ true now2 gid pid _ _ hv1]
    · rw [if_neg h4] at hv1
      rw [add_player_fail _ true now2 gid pid _ _ hv1]

/-- C9 counterexample: on a game with 4 members, adding player 5 succeeds;
the identical second call is rejected `GameFull`, not `AlreadyMember`. -/
theorem add_twice_gamefull_counterexample :
    (add_player_to_game stFive true 0 1 5).2 = ApiResult.ok 1 ∧
    (add_player_to_game (add_player_to_game stFive true 0 1 5).1 true 1 1 5).2
      = ApiResult.validationError [Reason.GameFull] ∧
    (add_player_to_game (add_player_to_game stFive true 0 1 5).1 true 1 1 5).2
      ≠ ApiResult.validationError [Reason.AlreadyMember] := by
  decide

/-- C9 witness: the amended theorem applied at a concrete store where the
second call does fail `AlreadyMember`. -/
theorem add_twice_rejected_witness :
    findGame stOne 1 = some ⟨1, "g", [1], 0, 0⟩ ∧
    validateMembership stOne 1 2 = [] ∧
    (add_player_to_game (add_player_to_game stOne true 0 1 2).1 true 1 1 2).2
      = ApiResult.validationError
          (if (Game.mk 1 "g" [1] 0 0).players.length = 4 then [Reason.GameFull]
           else [Reason.AlreadyMember]) :=
  ⟨by decide, by decide,
   (add_twice_rejected stOne 0 1 1 2 ⟨1, "g", [1], 0, 0⟩
      (by decide) (by decide)).2.1⟩

/-- Updating a game in place preserves the list of pks. -/
theorem updateGame_map_id (l : List Game) (gid : Nat) (f : Game → Game)
    (hf : ∀ g, (f g).id = g.id) :
    (updateGame l gid f).map Game.id = l.map Game.id := by
  unfold updateGame
  rw [List.map_map]
  apply List.map_congr_left
  intro g hg
  by_cases h : (g.id == gid) = true
  · simp [Function.comp, h, hf g]
  · simp [Function.comp, h]

/-- Every API call preserves the data-model invariants. -/
theorem storeInv_step (s : Store) (op : Op) (h : StoreInv s) :
    StoreInv (step s op) := by
  obtain ⟨hInv, hLt, hNd⟩ := h
  cases op with
  | createPlayer a n nm em =>
    unfold step create_new_player
    dsimp only
    cases hv : validateCreatePlayer s nm em with
    | nil =>
      cases a
      · exact ⟨hInv, hLt, hNd⟩
      · exact ⟨hInv, hLt, hNd⟩
    | cons e es => exact ⟨hInv, hLt, hNd⟩
  | createGame a n nm =>
    unfold step create_new_game
    dsimp only
    cases a
    · exact ⟨hInv, hLt, hNd⟩
    · refine ⟨?_, ?_, ?_⟩
      · intro g hgmem
        have hgm : g ∈ s.games ++
            [({ id := s.nextGameId, name := nm, players := [],
                created_at := n, updated_at := n } : Game)] := hgmem
        rcases List.mem_append.mp hgm with hmem | hmem
        · exact hInv g hmem
        · rcases List.mem_singleton.mp hmem with rfl
          exact ⟨by simp, List.nodup_nil⟩
      · intro g hgmem
        have hgm : g ∈ s.games ++
            [({ id := s.nextGameId, name := nm, players := [],
                created_at := n, updated_at := n } : Game)] := hgmem
        show g.id < s.nextGameId + 1
        rcases List.mem_append.mp hgm with hmem | hmem
        · exact Nat.lt_trans (hLt g hmem) (Nat.lt_succ_self _)
        · rcases List.mem_singleton.mp hmem with rfl
          exact Nat.lt_succ_self _
      · show (List.map Game.id (s.games ++
            [({ id := s.nextGameId, name := nm, players := [],
                created_at := n, updated_at := n } : Game)])).Nodup
        rw [List.map_append]
        rw [List.nodup_append]
        refine ⟨hNd, List.nodup_singleton _, ?_⟩
        intro x hx hx2
        rcases List.mem_singleton.mp hx2 with rfl
        rcases List.mem_map.mp hx with ⟨g, hgmem, hgid⟩
        exact Nat.lt_irrefl _ (hgid ▸ hLt g hgmem)
  | addMember a n gid pid =>
    unfold step add_player_to_game
    dsimp only
    cases hv : validateMembership s gid pid with
    | cons e es => exact ⟨hInv, hLt, hNd⟩
    | nil =>
      cases a
      · exact ⟨hInv, hLt, hNd⟩
      · obtain ⟨hp, g0, hg0, hlen, hmem⟩ := membership_valid_facts s gid pid hv
        have hInv2 : ∀ g ∈ updateGame s.games gid
            (fun x => { x with players := m2mAdd x.players pid }), GameInv g := by
          intro g hgmem
          unfold updateGame at hgmem
          rcases List.mem_map.mp hgmem with ⟨g1, hg1mem, rfl⟩
          dsimp only
          by_cases hid : (g1.id == gid) = true
          · rw [if_pos hid]
            have hfound : findGame s gid = some g1 := by
              unfold findGame
              exact find_eq_of_mem_nodup s.games gid hNd g1 hg1mem
                (by simpa using hid)
            rw [hg0] at hfound
            have hg10 : g1 = g0 := by injection hfound with hh; exact hh.symm
            unfold m2mAdd
            by_cases hc : (g1.players.contains pid) = true
            · rw [if_pos hc]
              exact hInv g1 hg1mem
            · rw [if_neg hc]
              obtain ⟨hl5, hnd1⟩ := hInv g1 hg1mem
              have h5 : (g1.players ++ [pid]).length ≤ 5 := by
                rw [List.length_append, hg10]
                simp only [List.length_singleton]
                omega
              have hnod : (g1.players ++ [pid]).Nodup := by
                rw [List.nodup_append]
                refine ⟨hnd1, List.nodup_singleton _, ?_⟩
                intro x hx hx2
                rcases List.mem_singleton.mp hx2 with rfl
                rw [hg10] at hx
                have hcx : g0.players.contains x = true :=
                  List.elem_eq_true_of_mem hx
                rw [hcx] at hmem
                exact absurd hmem (by decide)
              exact ⟨h5, hnod⟩
          · rw [if_neg hid]
            exact hInv g1 hg1mem
        have hmapid : (updateGame s.games gid
            (fun x => { x with players := m2mAdd x.players pid })).map Game.id
              = s.games.map Game.id :=
          updateGame_map_id s.games gid _ (fun g => rfl)
        refine ⟨hInv2, ?_, ?_⟩
        · intro g hgmem
          have hgm2 : g ∈ updateGame s.games gid
              (fun x => { x with players := m2mAdd x.players pid }) := hgmem
          have hx : g.id ∈ s.games.map Game.id := by
            rw [← hmapid]
            exact List.mem_map_of_mem _ hgm2
          rcases List.mem_map.mp hx with ⟨g1, hg1mem, hgid⟩
          show g.id < s.nextGameId
          exact hgid ▸ hLt g1 hg1mem
        · show (List.map Game.id (updateGame s.games gid
            (fun x => { x with players := m2mAdd x.players pid }))).Nodup
          rw [hmapid]
          exact hNd

/-- Sequences of API calls preserve the data-model invariants. -/
theorem storeInv_run (s : Store) (ops : List Op) (h : StoreInv s) :
    StoreInv (run s ops) := by
  induction ops generalizing s with
  | nil => exact h
  | cons op ops ih => exact ih (step s op) (storeInv_step s op h)

/-- C3: starting from any store satisfying the data-model invariants,
after any sequence of (successful or failed) `createPlayer`, `createGame`
and `addMemberToGame` calls, every game's member set has size at most 5
and contains each player identifier at most once. -/
theorem member_sets_invariant (s : Store) (ops : List Op) (h : StoreInv s) :
    ∀ g ∈ (run s ops).games, g.players.length ≤ 5 ∧ g.players.Nodup :=
  fun g hg => (storeInv_run s ops h).1 g hg

/-- C3 witness: the invariant theorem applied to the empty store and a
concrete call sequence. -/
theorem member_sets_invariant_witness :
    StoreInv st0 ∧
    ∀ g ∈ (run st0 [Op.createPlayer true 0 "ab" "a@b.cd",
        Op.createGame true 1 "Cup", Op.addMember true 2 1 1]).games,
      g.players.length ≤ 5 ∧ g.players.Nodup :=
  ⟨by decide,
   member_sets_invariant st0 [Op.createPlayer true 0 "ab" "a@b.cd",
     Op.createGame true 1 "Cup", Op.addMember true 2 1 1] (by decide)⟩

end Callback
